import Mathlib

/-!
Verification of the AI-Council orchestrator (`src/council.py`).

The development shallowly embeds the orchestration core: Python dicts become
association lists with Python insertion semantics (update-in-place keeps the
key position, a new key is appended), persona remote calls become an outcome
oracle (`Outcome.ok` for a returned text, `Outcome.err` for a raised
exception or a timeout), and wall-clock timestamps are outside the model.
Python string casing is modelled for ASCII text.
-/

namespace AICouncil

/-- A Python dict over string keys, as an association list.
`dinsert` is `d[k] = v`: it updates the first (only) binding of `k` in
place, or appends a fresh binding at the end, exactly like a Python dict. -/
def dinsert {α : Type} : List (String × α) → String → α → List (String × α)
  | [], k, v => [(k, v)]
  | p :: m, k, v => if p.1 = k then (k, v) :: m else p :: dinsert m k v

/-- `d.get(k)`: the value bound to `k`, if any. -/
def dget {α : Type} : List (String × α) → String → Option α
  | [], _ => none
  | p :: m, k => if p.1 = k then some p.2 else dget m k

/-- Python `l[-n:]`: the last `n` elements (all of them when `l` is shorter). -/
def pyLastN {α : Type} (n : Nat) (l : List α) : List α :=
  l.drop (l.length - n)

/-- Python `"\n".join(l)`. -/
def joinNL (l : List String) : String :=
  String.intercalate "\n" l

/-- Python `str.strip` whitespace set (ASCII). -/
def isPySpace (c : Char) : Bool :=
  c = ' ' || c = '\t' || c = '\n' || c = '\r' || c = '\x0b' || c = '\x0c'

/-- Python `s.strip()` (ASCII whitespace). -/
def pyStrip (s : String) : String :=
  String.mk (((s.toList.dropWhile isPySpace).reverse.dropWhile isPySpace).reverse)

/-- Python `s.upper()` (ASCII case mapping). -/
def pyUpper (s : String) : String :=
  String.mk (s.toList.map Char.toUpper)

/-- Python `s.lower()` (ASCII case mapping). -/
def pyLower (s : String) : String :=
  String.mk (s.toList.map Char.toLower)

/-- Python `s.startswith(p)`, on the characters. -/
def pyStartsWith (s p : String) : Bool :=
  p.toList.isPrefixOf s.toList

/-- Substring test on character lists, for Python `needle in hay`. -/
def charsContain (needle : List Char) : List Char → Bool
  | [] => needle.isEmpty
  | c :: rest => needle.isPrefixOf (c :: rest) || charsContain needle rest

/-- Python `needle in hay` on strings. -/
def strContains (hay needle : String) : Bool :=
  charsContain needle.toList hay.toList

/-- The outcome of one persona's remote call: a returned text, or an
exception/timeout carrying the exception message `str(e)`. -/
inductive Outcome where
  | ok (text : String)
  | err (msg : String)
deriving DecidableEq, Repr

/-- The four council roles (`CouncilOrchestrator`'s fixed agent set). -/
inductive Role where
  | visionary
  | strategist
  | operator
  | riskAnalyst
deriving DecidableEq, Repr, Fintype

/-- The internal role key used by the orchestrator dictionaries. -/
def Role.key : Role → String
  | .visionary => "Visionary"
  | .strategist => "Strategist"
  | .operator => "Operator"
  | .riskAnalyst => "Risk Analyst"

/-- The display alias from `agent_name_mapping` in `step_2_parallel_responses`. -/
def Role.displayName : Role → String
  | .visionary => "Elon"
  | .strategist => "Sam"
  | .operator => "Sheryl"
  | .riskAnalyst => "Ray"

/-- Declaration order of the four futures in `step_2_parallel_responses`. -/
def rolesList : List Role :=
  [.visionary, .strategist, .operator, .riskAnalyst]

/-- The 8 keys the broadcast step populates: for each role, the display
alias and then the role key (insertion order inside the loop body). -/
def eightKeys : List String :=
  rolesList.flatMap (fun r => [r.displayName, r.key])

/-- The value `step_2_parallel_responses` stores for one persona:
the returned result on success, the inline `"Error: <message>"` string on
exception (both branches of the `try`/`except` around `future.result()`). -/
def outcomeText : Outcome → String
  | .ok t => t
  | .err e => "Error: " ++ e

/-- One iteration of the `as_completed` loop in `step_2_parallel_responses`:
the result is stored under the display alias and then under the role key. -/
def step2Insert (outcome : Role → Outcome) (m : List (String × String)) (r : Role) :
    List (String × String) :=
  dinsert (dinsert m r.displayName (outcomeText (outcome r))) r.key (outcomeText (outcome r))

/-- `step_2_parallel_responses`: the `agent_responses` dict built by iterating
the four futures in completion order (`completionOrder`, a permutation of
`rolesList`), each completing with `outcome r`. -/
def step2ParallelResponses (outcome : Role → Outcome) (completionOrder : List Role) :
    List (String × String) :=
  completionOrder.foldl (step2Insert outcome) []

/-- A transcript entry produced by a persona, from the
`(agent, message, timestamp)` dicts of `council.py`; the wall-clock
`timestamp` field is outside the model. -/
structure ChatMsg where
  agent : String
  message : String
deriving DecidableEq, Repr

/-- Declaration order of the `agents` dict used by `step_2_5_debate`,
`run_tagged_debate`, and `run_one_round`. -/
def agentNames : List String :=
  ["Elon", "Sam", "Sheryl", "Ray"]

/-- The skip test in `run_one_round`:
`response.strip().upper() == "SKIP" or response.strip().upper().startswith("SKIP")`. -/
def isSkip (response : String) : Bool :=
  pyUpper (pyStrip response) == "SKIP" || pyStartsWith (pyUpper (pyStrip response)) "SKIP"

/-- The turn-taking prompt of a non-first round in `run_one_round`. -/
def groupPrompt (context : String) : String :=
  "The group is discussing:\n\n" ++ context ++
    "\n\nDo you have something to add? Only respond if you have something relevant to say. If you don\x27t have anything to add, respond with just \x27SKIP\x27."

/-- The first-round prompt of `run_one_round`: the last `"You:"`-message of
the history, else its first line, else the empty string. -/
def firstRoundPrompt (history : List String) : String :=
  let userMessages := history.filter (fun msg => pyStartsWith msg "You:")
  match userMessages.getLast? with
  | some msg => msg
  | none =>
      match history.head? with
      | some msg => msg
      | none => ""

/-- The bounded context window built at the start of a round:
`"\n".join(history[-10:])` (the Python source writes the `len > 10` branch
explicitly, with the same value). -/
def roundContext (history : List String) : String :=
  joinNL (pyLastN 10 history)

/-- The prompt submitted for every persona of one `run_one_round` round. -/
def roundPrompt (isFirst : Bool) (history : List String) : String :=
  if isFirst then firstRoundPrompt history else groupPrompt (roundContext history)

/-- One iteration of the result-collection loop of `run_one_round`
(iterating `futures.items()` in declaration order). The accumulator is
`(new_messages, conversation_history, displayed errors)`: a skip contributes
nothing, a normal reply is appended to both lists, a raised/timed-out call
only yields the displayed `"Error: <message>"` text. -/
def roundCollectStep (outcome : String → String → String → Outcome)
    (prompt context : String)
    (acc : List ChatMsg × List String × List (String × String)) (name : String) :
    List ChatMsg × List String × List (String × String) :=
  match outcome name prompt context with
  | .ok response =>
      if isSkip response then acc
      else (acc.1 ++ [⟨name, response⟩], acc.2.1 ++ [name ++ ": " ++ response], acc.2.2)
  | .err e => (acc.1, acc.2.1, acc.2.2 ++ [(name, "Error: " ++ e)])

/-- Result of one `run_one_round` call: the returned new messages, the
mutated conversation history, the error texts displayed for failed calls,
and the `(agent, prompt, context)` triple each submitted future received. -/
structure RoundResult where
  newMessages : List ChatMsg
  history : List String
  errors : List (String × String)
  inputs : List (String × String × String)
deriving DecidableEq, Repr

/-- `run_one_round`: the submission loop computes one context and one prompt
from the pre-round history and submits all four personas with them; the
collection loop then iterates the futures dict in declaration order, so the
workers' completion order (`completionOrder`) affects scheduling only and is
unobservable in the result. -/
def runOneRound (outcome : String → String → String → Outcome) (history : List String)
    (isFirst : Bool) (_completionOrder : List String) : RoundResult :=
  let context := roundContext history
  let prompt := roundPrompt isFirst history
  let collected := agentNames.foldl (roundCollectStep outcome prompt context) ([], history, [])
  ⟨collected.1, collected.2.1, collected.2.2, agentNames.map (fun n => (n, prompt, context))⟩

/-- The contribution of one persona to a round, as recovered from
`roundCollectStep`: `none` for a skip or a failed call. -/
def roundEntry (outcome : String → String → String → Outcome)
    (prompt context : String) (name : String) : Option ChatMsg :=
  match outcome name prompt context with
  | .ok response => if isSkip response then none else some ⟨name, response⟩
  | .err _ => none

/-- The displayed error of one persona in a round, if its call failed. -/
def roundError (outcome : String → String → String → Outcome)
    (prompt context : String) (name : String) : Option (String × String) :=
  match outcome name prompt context with
  | .ok _ => none
  | .err e => some (name, "Error: " ++ e)

/-- One iteration of the inner agent loop of a `step_2_5_debate` round: the
context window is recomputed from the current history, which already holds
the replies appended earlier in the same round; the reply (or the inline
error text, which this step does append) is then appended. The third
component records the `(agent, context)` input each persona received. -/
def step25RoundStep (chat : String → String → String → Outcome)
    (acc : List String × List ChatMsg × List (String × String)) (name : String) :
    List String × List ChatMsg × List (String × String) :=
  let context := joinNL (pyLastN 10 acc.1)
  let prompt := "The group is discussing:\n\n" ++ context ++
    "\n\nWhat do you think? Respond naturally to the conversation."
  match chat name prompt context with
  | .ok r =>
      (acc.1 ++ [name ++ ": " ++ r], acc.2.1 ++ [⟨name, r⟩], acc.2.2 ++ [(name, context)])
  | .err e =>
      (acc.1 ++ [name ++ ": Error: " ++ e], acc.2.1 ++ [⟨name, "Error: " ++ e⟩],
        acc.2.2 ++ [(name, context)])

/-- One round of `step_2_5_debate`: the agents respond sequentially in
declaration order, each over the history as mutated so far. -/
def step25Round (chat : String → String → String → Outcome) (history : List String) :
    List String × List ChatMsg × List (String × String) :=
  agentNames.foldl (step25RoundStep chat) (history, [], [])

/-- The initial conversation history `step_2_5_debate` builds from
`agent_responses` (role-keyed lookups, rendered under display aliases). -/
def step25InitialHistory (agentResponses : List (String × String)) : List String :=
  rolesList.filterMap
    (fun r => (dget agentResponses r.key).map (fun resp => r.displayName ++ ": " ++ resp))

/-- The full multi-round loop of `step_2_5_debate`: `rounds` sequential
rounds over the accumulated history. Returns the final history and the
collected `group_chat` messages. -/
def step25Debate (chat : String → String → String → Outcome) (initialHistory : List String) :
    Nat → List String × List ChatMsg
  | 0 => (initialHistory, [])
  | n + 1 =>
      let prev := step25Debate chat initialHistory n
      let r := step25Round chat prev.1
      (r.1, prev.2 ++ r.2.1)

/-- The participating-agent dict of `run_tagged_debate`:
`{name: agents[name] for name in tagged_agents if name in agents}` keeps
the first occurrence position of each valid alias. -/
def participatingOf (tagged : List String) : List String :=
  tagged.foldl (fun acc n => if n ∈ agentNames ∧ n ∉ acc then acc ++ [n] else acc) []

/-- The context window computed once at the start of one debate exchange. -/
def exchangeContext (hist : List String) : String :=
  joinNL (pyLastN 10 hist)

/-- The per-agent debate prompt of `run_tagged_debate`: exchange `0` answers
the user's request, later exchanges respond to each other. -/
def exchangePrompt (name : String) (i : Nat) (userMessage context : String) : String :=
  if i = 0 then
    "You are " ++ name ++ " in a focused debate/discussion. The user asked: \"" ++
      userMessage ++ "\"\n\nRECENT CONVERSATION:\n" ++ context ++
      "\n\nRespond to the user\x27s request. This is exchange 1 of up to 3. Try to make progress toward closing the topic. Be direct and substantive."
  else
    "You are " ++ name ++ " in a focused debate/discussion. \n\nRECENT CONVERSATION:\n" ++
      context ++ "\n\nThis is exchange " ++ toString (i + 1) ++
      " of up to 3. Respond to what others said. Try to move toward closing the topic - agree, disagree, or propose a resolution. If the topic feels resolved, you can acknowledge that."

/-- One iteration of the agent loop inside a `run_tagged_debate` exchange:
a successful reply extends the debate history and the exchange messages, a
failed call contributes nothing (the source only prints the error). The
third accumulator component records the `(agent, prompt, context)` input of
every dispatched call. -/
def exchangeStep (chat : String → String → String → Outcome) (i : Nat)
    (userMessage context : String)
    (acc : List String × List ChatMsg × List (String × String × String)) (name : String) :
    List String × List ChatMsg × List (String × String × String) :=
  let prompt := exchangePrompt name i userMessage context
  match chat name prompt context with
  | .ok r =>
      (acc.1 ++ [name ++ ": " ++ r], acc.2.1 ++ [⟨name, r⟩],
        acc.2.2 ++ [(name, prompt, context)])
  | .err _ => (acc.1, acc.2.1, acc.2.2 ++ [(name, prompt, context)])

/-- One exchange of `run_tagged_debate`: the context is computed once before
the agent loop and every participating agent is called with it. -/
def runExchange (chat : String → String → String → Outcome) (participating : List String)
    (i : Nat) (userMessage : String) (hist : List String) :
    List String × List ChatMsg × List (String × String × String) :=
  participating.foldl (exchangeStep chat i userMessage (exchangeContext hist)) (hist, [], [])

/-- The fixed closing-signal phrase list of `run_tagged_debate`. -/
def closingSignals : List String :=
  ["agree", "sounds good", "makes sense", "resolved", "i think we\x27re done", "that works"]

/-- The closing check after one exchange: some lowered reply of the exchange
contains some closing signal as a substring. -/
def hasClosingSignal (msgs : List ChatMsg) : Bool :=
  msgs.any (fun m => closingSignals.any (fun s => strContains (pyLower m.message) s))

/-- The break condition of the exchange loop:
`if exchange_messages and any(signal in response ...)`. -/
def hasClosingBreak (ex : List ChatMsg) : Bool :=
  !ex.isEmpty && hasClosingSignal ex

/-- The exchange loop of `run_tagged_debate` (`for exchange in
range(max_exchanges)` with the closing-signal `break`), indexed by the
remaining iteration budget and the current exchange index. Returns the list
of executed exchanges' message lists; the flat debate message list is its
join. -/
def debateTrace (chat : String → String → String → Outcome) (participating : List String)
    (userMessage : String) : Nat → Nat → List String → List (List ChatMsg)
  | 0, _, _ => []
  | rem + 1, i, hist =>
      let r := runExchange chat participating i userMessage hist
      if hasClosingBreak r.2.1 then [r.2.1]
      else r.2.1 :: debateTrace chat participating userMessage rem (i + 1) r.1

/-- `run_tagged_debate`: filters the tagged aliases, returns immediately when
none is valid, otherwise appends the user message to a copy of the history
and runs up to `3` exchanges (`max_exchanges = 3`). The result is the trace
of executed exchanges; the returned `debate_messages` list is its join. -/
def runTaggedDebate (chat : String → String → String → Outcome) (tagged : List String)
    (userMessage : String) (history : List String) : List (List ChatMsg) :=
  let participating := participatingOf tagged
  if participating.isEmpty then []
  else debateTrace chat participating userMessage 3 0 (history ++ ["You: " ++ userMessage])

/-- The flat message list `run_tagged_debate` returns. -/
def runTaggedDebateMessages (chat : String → String → String → Outcome)
    (tagged : List String) (userMessage : String) (history : List String) : List ChatMsg :=
  (runTaggedDebate chat tagged userMessage history).flatten

/-- One `range(1, chat_rounds)` iteration of `run_group_chat`: one further
skip-enabled round over the accumulated history; the source checks
`if not round_messages` only to print a notice, so no round ends the loop
early. The accumulator carries the accumulated messages, the history, and
the `is_first_round` flag of every executed round. -/
def groupChatStep (outcome : Nat → String → String → String → Outcome)
    (acc : List ChatMsg × List String × List Bool) (i : Nat) :
    List ChatMsg × List String × List Bool :=
  let r := runOneRound (outcome i) acc.2.1 false agentNames
  (acc.1 ++ r.newMessages, r.history, acc.2.2 ++ [false])

/-- `run_group_chat`: one first round over the fresh
`["You: " + user_message]` history, then `range(1, chat_rounds)` further
skip-enabled rounds via `groupChatStep`. The per-round outcome oracle is
indexed by the round number. -/
def runGroupChat (outcome : Nat → String → String → String → Outcome)
    (userMessage : String) (chatRounds : Nat) :
    List ChatMsg × List String × List Bool :=
  let history0 := ["You: " ++ userMessage]
  let r1 := runOneRound (outcome 0) history0 true agentNames
  (List.range' 1 (chatRounds - 1)).foldl (groupChatStep outcome)
    (r1.newMessages, r1.history, [true])

/-- The structured synthesis record (`SynthesisOutput` of `synthesis.py`);
`synthesize` always returns all five keys, so the `.get(key, default)`
lookups of the decision strategies resolve to the fields. -/
structure SynthesisOutput where
  summary : String
  agreements : List String
  conflicts : List String
  blindSpots : List String
  finalOptions : List String
deriving DecidableEq, Repr

/-- One `weight_breakdown` value: the configured weight and the truncated
response preview. -/
structure WeightEntry where
  weight : Rat
  responsePreview : String
deriving DecidableEq, Repr

/-- The record `_weighted_decision` returns. -/
structure WeightedDecision where
  method : String
  weightsUsed : List (String × Rat)
  synthesisSummary : String
  recommendedOptions : List String
  weightBreakdown : List (String × WeightEntry)
  keyAgreements : List String
  keyConflicts : List String
  identifiedBlindSpots : List String
deriving DecidableEq, Repr

/-- The record `_majority_voting` returns. -/
structure MajorityDecision where
  method : String
  synthesisSummary : String
  recommendedOptions : List String
  agentResponses : List (String × String)
  keyAgreements : List String
  keyConflicts : List String
  identifiedBlindSpots : List String
deriving DecidableEq, Repr

/-- `role_to_name.get(role_name, role_name)` of `_weighted_decision`. -/
def roleToName (role : String) : String :=
  if role = "Visionary" then "Elon"
  else if role = "Strategist" then "Sam"
  else if role = "Operator" then "Sheryl"
  else if role = "Risk Analyst" then "Ray"
  else role

/-- The preview both strategies store:
`response[:200] + "..." if len(response) > 200 else response`. -/
def preview200 (response : String) : String :=
  if response.length > 200 then response.take 200 ++ "..." else response

/-- `agent_responses.get(role_name) or agent_responses.get(normal_name, "")`:
Python `or` falls through on a missing key and on an empty string. -/
def pyGetOr (m : List (String × String)) (k fallback : String) : String :=
  match dget m k with
  | some v => if v = "" then (dget m fallback).getD "" else v
  | none => (dget m fallback).getD ""

/-- `_weighted_decision`: builds the alias-keyed `weight_breakdown` from the
configured weights and copies the synthesis fields through unchanged. -/
def weightedDecision (weights : List (String × Rat)) (agentResponses : List (String × String))
    (synthesisOutput : SynthesisOutput) : WeightedDecision :=
  let weightBreakdown := weights.foldl
    (fun acc p =>
      dinsert acc (roleToName p.1) ⟨p.2, preview200 (pyGetOr agentResponses p.1 (roleToName p.1))⟩)
    []
  ⟨"weighted_model",
    weights.foldl (fun acc p => dinsert acc (roleToName p.1) p.2) [],
    synthesisOutput.summary,
    synthesisOutput.finalOptions,
    weightBreakdown,
    synthesisOutput.agreements,
    synthesisOutput.conflicts,
    synthesisOutput.blindSpots⟩

/-- `_majority_voting`: previews every response under its existing key and
copies the synthesis fields through unchanged. -/
def majorityVoting (agentResponses : List (String × String))
    (synthesisOutput : SynthesisOutput) : MajorityDecision :=
  ⟨"majority_voting",
    synthesisOutput.summary,
    synthesisOutput.finalOptions,
    agentResponses.foldl (fun acc p => dinsert acc p.1 (preview200 p.2)) [],
    synthesisOutput.agreements,
    synthesisOutput.conflicts,
    synthesisOutput.blindSpots⟩

/-- `Config.AGENT_WEIGHTS`. -/
def agentWeightsConfig : List (String × Rat) :=
  [("Visionary", 35/100), ("Strategist", 30/100), ("Operator", 20/100), ("Risk Analyst", 15/100)]

/-- The role-key list of `Config.AGENT_WEIGHTS`. -/
def knownRoleKeys : List String :=
  ["Visionary", "Strategist", "Operator", "Risk Analyst"]

/-- Python dict merge `\x7b**a, **b\x7d` of `CouncilOrchestrator.__init__`. -/
def pyMerge (a b : List (String × Rat)) : List (String × Rat) :=
  b.foldl (fun acc p => dinsert acc p.1 p.2) a

/-- The `self.weights` set by `CouncilOrchestrator.__init__`: the defaults
merged with the custom weights when the latter are present and non-empty
(Python `if custom_weights:` is false for `None` and for an empty dict). -/
def initWeights (customWeights : Option (List (String × Rat))) : List (String × Rat) :=
  match customWeights with
  | some cw => if cw.isEmpty then agentWeightsConfig else pyMerge agentWeightsConfig cw
  | none => agentWeightsConfig

/-! ## Dictionary lemmas -/

theorem dget_dinsert_self {α : Type} (m : List (String × α)) (k : String) (v : α) :
    dget (dinsert m k v) k = some v := by
  induction m with
  | nil => simp [dinsert, dget]
  | cons p m ih =>
      by_cases h : p.1 = k
      · simp [dinsert, dget, h]
      · simp [dinsert, dget, h, ih]

theorem dget_dinsert_ne {α : Type} (m : List (String × α)) (k k' : String) (v : α)
    (h : k' ≠ k) : dget (dinsert m k v) k' = dget m k' := by
  induction m with
  | nil => simp [dinsert, dget, Ne.symm h]
  | cons p m ih =>
      by_cases hp : p.1 = k
      · simp [dinsert, dget, hp, Ne.symm h]
      · simp [dinsert, dget, hp, ih]

theorem dget_eq_none_iff {α : Type} (m : List (String × α)) (k : String) :
    dget m k = none ↔ k ∉ m.map Prod.fst := by
  induction m with
  | nil => simp [dget]
  | cons p m ih =>
      by_cases hp : p.1 = k
      · simp [dget, hp]
      · simp [dget, hp, ih, Ne.symm hp]

theorem dinsert_map_fst {α : Type} (m : List (String × α)) (k : String) (v : α) :
    (dinsert m k v).map Prod.fst =
      if k ∈ m.map Prod.fst then m.map Prod.fst else m.map Prod.fst ++ [k] := by
  induction m with
  | nil => simp [dinsert]
  | cons p m ih =>
      by_cases hp : p.1 = k
      · simp [dinsert, hp]
      · by_cases hk : k ∈ m.map Prod.fst
        · simp [dinsert, hp, ih, hk, Ne.symm hp]
        · simp [dinsert, hp, ih, hk, Ne.symm hp]

/-! ## Role-table facts -/

theorem role_key_injective : ∀ r r' : Role, r ≠ r' → r.key ≠ r'.key := by decide

theorem role_displayName_injective :
    ∀ r r' : Role, r ≠ r' → r.displayName ≠ r'.displayName := by decide

theorem role_key_ne_displayName : ∀ r r' : Role, r.key ≠ r'.displayName := by decide

theorem rolesList_nodup : rolesList.Nodup := by decide

theorem mem_rolesList : ∀ r : Role, r ∈ rolesList := by decide

/-! ## Broadcast-step lemmas -/

theorem step2Insert_dget_other (o : Role → Outcome) (m : List (String × String)) (r : Role)
    (k : String) (hk : k ≠ r.key) (hd : k ≠ r.displayName) :
    dget (step2Insert o m r) k = dget m k := by
  unfold step2Insert
  rw [dget_dinsert_ne _ _ _ _ hk, dget_dinsert_ne _ _ _ _ hd]

theorem step2_foldl_dget_not_mem (o : Role → Outcome) :
    ∀ (co : List Role) (m : List (String × String)) (k : String),
      (∀ r ∈ co, k ≠ r.key ∧ k ≠ r.displayName) →
      dget (co.foldl (step2Insert o) m) k = dget m k := by
  intro co
  induction co with
  | nil => intro m k _; rfl
  | cons a co ih =>
      intro m k hk
      have ha := hk a (by simp)
      rw [List.foldl_cons, ih _ k (fun r hr => hk r (by simp [hr])),
        step2Insert_dget_other o m a k ha.1 ha.2]

theorem step2_foldl_dget_mem (o : Role → Outcome) :
    ∀ (co : List Role) (m : List (String × String)) (r : Role),
      r ∈ co → co.Nodup →
      dget (co.foldl (step2Insert o) m) r.key = some (outcomeText (o r)) ∧
      dget (co.foldl (step2Insert o) m) r.displayName = some (outcomeText (o r)) := by
  intro co
  induction co with
  | nil => intro m r hr; exact absurd hr (by simp)
  | cons a co ih =>
      intro m r hr hnd
      rcases List.mem_cons.mp hr with h | h
      · subst h
        have hnotin : r ∉ co := (List.nodup_cons.mp hnd).1
        rw [List.foldl_cons]
        constructor
        · rw [step2_foldl_dget_not_mem o co _ r.key
            (fun r' hr' => ⟨role_key_injective r r' (fun he => hnotin (he ▸ hr')),
              role_key_ne_displayName r r'⟩)]
          unfold step2Insert
          exact dget_dinsert_self _ _ _
        · rw [step2_foldl_dget_not_mem o co _ r.displayName
            (fun r' hr' => ⟨(role_key_ne_displayName r' r).symm,
              role_displayName_injective r r' (fun he => hnotin (he ▸ hr'))⟩)]
          unfold step2Insert
          rw [dget_dinsert_ne _ _ _ _ (role_key_ne_displayName r r).symm]
          exact dget_dinsert_self _ _ _
      · rw [List.foldl_cons]
        exact ih _ r h (List.nodup_cons.mp hnd).2

theorem step2_foldl_map_fst (o : Role → Outcome) :
    ∀ (co : List Role) (m : List (String × String)),
      (∀ r ∈ co, dget m r.key = none ∧ dget m r.displayName = none) → co.Nodup →
      (co.foldl (step2Insert o) m).map Prod.fst =
        m.map Prod.fst ++ co.flatMap (fun r => [r.displayName, r.key]) := by
  intro co
  induction co with
  | nil => intro m _ _; simp
  | cons a co ih =>
      intro m hm hnd
      have ha := hm a (by simp)
      have hnotin : a ∉ co := (List.nodup_cons.mp hnd).1
      have hd1 : (dinsert m a.displayName (outcomeText (o a))).map Prod.fst =
          m.map Prod.fst ++ [a.displayName] := by
        rw [dinsert_map_fst, if_neg ((dget_eq_none_iff m a.displayName).mp ha.2)]
      have hkey : dget (dinsert m a.displayName (outcomeText (o a))) a.key = none := by
        rw [dget_dinsert_ne _ _ _ _ (role_key_ne_displayName a a)]
        exact ha.1
      have hd2 : (step2Insert o m a).map Prod.fst =
          m.map Prod.fst ++ [a.displayName, a.key] := by
        unfold step2Insert
        rw [dinsert_map_fst, if_neg ((dget_eq_none_iff _ a.key).mp hkey), hd1]
        simp
      have hrest : ∀ r ∈ co, dget (step2Insert o m a) r.key = none ∧
          dget (step2Insert o m a) r.displayName = none := by
        intro r hr
        have hra : r ≠ a := fun he => hnotin (he ▸ hr)
        constructor
        · rw [step2Insert_dget_other o m a r.key (role_key_injective r a hra)
            (role_key_ne_displayName r a)]
          exact (hm r (by simp [hr])).1
        · rw [step2Insert_dget_other o m a r.displayName
            (fun he => role_key_ne_displayName a r he.symm)
            (role_displayName_injective r a hra)]
          exact (hm r (by simp [hr])).2
      rw [List.foldl_cons, ih _ hrest (List.nodup_cons.mp hnd).2, hd2]
      simp

/-- C1: after the parallel-response step, `agent_responses` holds exactly the
8 keys (the 4 display aliases and the 4 role keys), whatever the outcome of
each persona call and whatever completion order the futures finish in; for
every role the role-keyed value and the alias-keyed value are the same
stored result (for a failed call, the same inline `"Error: <message>"`
string). -/
theorem step2_dual_key_completeness (o : Role → Outcome) (co : List Role) (r : Role)
    (hco : co.Perm rolesList) :
    ((step2ParallelResponses o co).map Prod.fst).Perm eightKeys ∧
    dget (step2ParallelResponses o co) r.key = some (outcomeText (o r)) ∧
    dget (step2ParallelResponses o co) r.displayName = some (outcomeText (o r)) := by
  have hnd : co.Nodup := hco.nodup_iff.mpr rolesList_nodup
  constructor
  · have hkeys := step2_foldl_map_fst o co []
      (by intro r' _; exact ⟨rfl, rfl⟩) hnd
    unfold step2ParallelResponses
    rw [hkeys]
    simpa [eightKeys] using hco.flatMap_right (fun r' => [r'.displayName, r'.key])
  · exact step2_foldl_dget_mem o co [] r (hco.mem_iff.mpr (mem_rolesList r)) hnd

/-- Witness for C1 at a concrete completion order and a mixed
success/failure outcome assignment. -/
theorem step2_dual_key_completeness_witness :
    ([Role.strategist, Role.riskAnalyst, Role.visionary, Role.operator] : List Role).Perm
        rolesList ∧
    (((step2ParallelResponses
        (fun r => match r with
          | .visionary => Outcome.err "boom"
          | _ => Outcome.ok "fine")
        [Role.strategist, Role.riskAnalyst, Role.visionary, Role.operator]).map
            Prod.fst).Perm eightKeys ∧
      dget (step2ParallelResponses
        (fun r => match r with
          | .visionary => Outcome.err "boom"
          | _ => Outcome.ok "fine")
        [Role.strategist, Role.riskAnalyst, Role.visionary, Role.operator])
          Role.visionary.key = some (outcomeText (Outcome.err "boom")) ∧
      dget (step2ParallelResponses
        (fun r => match r with
          | .visionary => Outcome.err "boom"
          | _ => Outcome.ok "fine")
        [Role.strategist, Role.riskAnalyst, Role.visionary, Role.operator])
          Role.visionary.displayName = some (outcomeText (Outcome.err "boom"))) :=
  ⟨by decide,
    step2_dual_key_completeness _ _ Role.visionary (by decide)⟩

/-! ## Round-collection lemmas for `run_one_round` -/

theorem roundCollect_spec (o : String → String → String → Outcome) (prompt context : String) :
    ∀ (l : List String) (acc : List ChatMsg × List String × List (String × String)),
      l.foldl (roundCollectStep o prompt context) acc =
        (acc.1 ++ l.filterMap (roundEntry o prompt context),
          acc.2.1 ++ (l.filterMap (roundEntry o prompt context)).map
            (fun m => m.agent ++ ": " ++ m.message),
          acc.2.2 ++ l.filterMap (roundError o prompt context)) := by
  intro l
  induction l with
  | nil => intro acc; simp
  | cons a l ih =>
      intro acc
      rw [List.foldl_cons, ih]
      cases h : o a prompt context with
      | ok response =>
          by_cases hs : isSkip response
          · simp [roundCollectStep, roundEntry, roundError, h, hs]
          · simp [roundCollectStep, roundEntry, roundError, h, hs]
      | err e => simp [roundCollectStep, roundEntry, roundError, h]

theorem runOneRound_spec (o : String → String → String → Outcome) (hist : List String)
    (f : Bool) (co : List String) :
    runOneRound o hist f co =
      ⟨agentNames.filterMap (roundEntry o (roundPrompt f hist) (roundContext hist)),
        hist ++ (agentNames.filterMap (roundEntry o (roundPrompt f hist)
          (roundContext hist))).map (fun m => m.agent ++ ": " ++ m.message),
        agentNames.filterMap (roundError o (roundPrompt f hist) (roundContext hist)),
        agentNames.map (fun n => (n, roundPrompt f hist, roundContext hist))⟩ := by
  simp only [runOneRound, roundCollect_spec, List.nil_append]

theorem roundEntry_agent (o : String → String → String → Outcome) (p c n : String)
    (m : ChatMsg) (h : roundEntry o p c n = some m) : m.agent = n := by
  unfold roundEntry at h
  cases ho : o n p c with
  | ok r =>
      rw [ho] at h
      by_cases hs : isSkip r
      · simp [hs] at h
      · simp [hs] at h
        rw [← h]
  | err e => rw [ho] at h; simp at h

theorem filterMap_roundEntry_agents (o : String → String → String → Outcome) (p c : String) :
    ∀ l : List String,
      (l.filterMap (roundEntry o p c)).map ChatMsg.agent =
        l.filter (fun n => (roundEntry o p c n).isSome) := by
  intro l
  induction l with
  | nil => rfl
  | cons a l ih =>
      cases h : roundEntry o p c a with
      | none => simp [List.filterMap_cons, h, ih, List.filter_cons]
      | some m =>
          have hm := roundEntry_agent o p c a m h
          simp [List.filterMap_cons, h, ih, List.filter_cons, hm]

/-- C5: `run_one_round` collects results by iterating the futures dict in its
declaration order, so with fixed persona outputs the round's result — in
particular the order of the returned new messages and of the transcript
appends — is identical under every permutation of the workers' completion
order, and that order is the declaration order Elon, Sam, Sheryl, Ray
restricted to the personas that contributed. -/
theorem round_order_deterministic (o : String → String → String → Outcome)
    (hist : List String) (f : Bool) (co co' : List String)
    (hco : co.Perm agentNames) (hco' : co'.Perm agentNames) :
    runOneRound o hist f co = runOneRound o hist f co' ∧
    (runOneRound o hist f co).newMessages.map ChatMsg.agent =
      agentNames.filter
        (fun n => (roundEntry o (roundPrompt f hist) (roundContext hist) n).isSome) := by
  refine ⟨rfl, ?_⟩
  rw [runOneRound_spec]
  exact filterMap_roundEntry_agents o (roundPrompt f hist) (roundContext hist) agentNames

/-- Witness for C5 at a concrete outcome assignment (one persona skipping)
and two distinct completion orders. -/
theorem round_order_deterministic_witness :
    (["Ray", "Elon", "Sam", "Sheryl"] : List String).Perm agentNames ∧
    (["Sam", "Sheryl", "Ray", "Elon"] : List String).Perm agentNames ∧
    (runOneRound (fun n _ _ => if n == "Sam" then Outcome.ok "SKIP" else Outcome.ok ("hi " ++ n))
        ["You: hello"] false ["Ray", "Elon", "Sam", "Sheryl"] =
      runOneRound (fun n _ _ => if n == "Sam" then Outcome.ok "SKIP" else Outcome.ok ("hi " ++ n))
        ["You: hello"] false ["Sam", "Sheryl", "Ray", "Elon"] ∧
      (runOneRound (fun n _ _ => if n == "Sam" then Outcome.ok "SKIP" else Outcome.ok ("hi " ++ n))
          ["You: hello"] false ["Ray", "Elon", "Sam", "Sheryl"]).newMessages.map ChatMsg.agent =
        agentNames.filter
          (fun n => (roundEntry (fun n _ _ => if n == "Sam" then Outcome.ok "SKIP" else Outcome.ok ("hi " ++ n))
            (roundPrompt false ["You: hello"]) (roundContext ["You: hello"]) n).isSome)) :=
  ⟨by decide, by decide,
    round_order_deterministic _ ["You: hello"] false _ _ (by decide) (by decide)⟩

/-- C4: in a skip-enabled (non-first) round, a persona reply whose stripped
text case-insensitively equals `"SKIP"` or begins with `"SKIP"` is not
appended to the conversation history and does not occur in the round's
returned new-messages list (the history grows exactly by the rendered new
messages, none of which belongs to the skipping persona). -/
theorem skip_not_recorded (o : String → String → String → Outcome) (hist : List String)
    (co : List String) (name response : String)
    (hname : name ∈ agentNames)
    (hresp : o name (roundPrompt false hist) (roundContext hist) = Outcome.ok response)
    (hskip : isSkip response = true) :
    (runOneRound o hist false co).newMessages.all (fun m => m.agent != name) = true ∧
    (runOneRound o hist false co).history =
      hist ++ (runOneRound o hist false co).newMessages.map
        (fun m => m.agent ++ ": " ++ m.message) := by
  have hentry : roundEntry o (roundPrompt false hist) (roundContext hist) name = none := by
    unfold roundEntry
    rw [hresp]
    simp [hskip]
  constructor
  · rw [runOneRound_spec]
    simp only [List.all_eq_true, bne_iff_ne, ne_eq]
    intro m hm hagent
    rcases List.mem_filterMap.mp hm with ⟨n, _, he⟩
    have hn : m.agent = n := roundEntry_agent _ _ _ _ _ he
    rw [hn.symm, hagent, hentry] at he
    exact Option.noConfusion he
  · rw [runOneRound_spec]

/-- Witness for C4: Sam replies `"  sKiP, nothing to add"`, which strips and
uppercases to a `"SKIP"`-prefixed text, and is absent from the round. -/
theorem skip_not_recorded_witness :
    ("Sam" : String) ∈ agentNames ∧
    (fun n _ _ => if n == "Sam" then Outcome.ok "  sKiP, nothing to add"
      else Outcome.ok ("hi " ++ n)) "Sam" (roundPrompt false ["You: hello"])
        (roundContext ["You: hello"]) = Outcome.ok "  sKiP, nothing to add" ∧
    isSkip "  sKiP, nothing to add" = true ∧
    ((runOneRound (fun n _ _ => if n == "Sam" then Outcome.ok "  sKiP, nothing to add"
        else Outcome.ok ("hi " ++ n)) ["You: hello"] false agentNames).newMessages.all
          (fun m => m.agent != "Sam") = true ∧
      (runOneRound (fun n _ _ => if n == "Sam" then Outcome.ok "  sKiP, nothing to add"
          else Outcome.ok ("hi " ++ n)) ["You: hello"] false agentNames).history =
        ["You: hello"] ++ (runOneRound (fun n _ _ => if n == "Sam" then Outcome.ok "  sKiP, nothing to add"
          else Outcome.ok ("hi " ++ n)) ["You: hello"] false agentNames).newMessages.map
            (fun m => m.agent ++ ": " ++ m.message)) :=
  ⟨by decide, by decide, by decide,
    skip_not_recorded _ ["You: hello"] agentNames "Sam" "  sKiP, nothing to add"
      (by decide) (by decide) (by decide)⟩

/-- C6: a single persona call that raises or times out is contained: in the
broadcast step the failed persona's two keys hold the inline
`"Error: <message>"` string while every other persona keeps its own result;
in a group-chat round the failure only produces the displayed error text for
that persona — the round itself returns normally, the failed persona
contributes no message, and every other persona's contribution is still
collected. -/
theorem persona_failure_containment
    (o2 : Role → Outcome) (co2 : List Role) (r r' : Role) (e : String)
    (o : String → String → String → Outcome) (hist : List String) (f : Bool)
    (co : List String) (name n : String) (e' : String) (m : ChatMsg)
    (hperm : co2.Perm rolesList) (herr : o2 r = Outcome.err e) (hr' : r' ≠ r)
    (hname : name ∈ agentNames)
    (herrRound : o name (roundPrompt f hist) (roundContext hist) = Outcome.err e')
    (hn : n ∈ agentNames)
    (hm : roundEntry o (roundPrompt f hist) (roundContext hist) n = some m) :
    dget (step2ParallelResponses o2 co2) r.key = some ("Error: " ++ e) ∧
    dget (step2ParallelResponses o2 co2) r.displayName = some ("Error: " ++ e) ∧
    dget (step2ParallelResponses o2 co2) r'.key = some (outcomeText (o2 r')) ∧
    (name, "Error: " ++ e') ∈ (runOneRound o hist f co).errors ∧
    (runOneRound o hist f co).newMessages.all (fun x => x.agent != name) = true ∧
    m ∈ (runOneRound o hist f co).newMessages := by
  have hnd : co2.Nodup := hperm.nodup_iff.mpr rolesList_nodup
  have h1 := step2_foldl_dget_mem o2 co2 [] r (hperm.mem_iff.mpr (mem_rolesList r)) hnd
  have h2 := step2_foldl_dget_mem o2 co2 [] r' (hperm.mem_iff.mpr (mem_rolesList r')) hnd
  refine ⟨?_, ?_, h2.1, ?_, ?_, ?_⟩
  · simpa [step2ParallelResponses, herr, outcomeText] using h1.1
  · simpa [step2ParallelResponses, herr, outcomeText] using h1.2
  · rw [runOneRound_spec]
    refine List.mem_filterMap.mpr ⟨name, hname, ?_⟩
    unfold roundError
    rw [herrRound]
  · have hentry : roundEntry o (roundPrompt f hist) (roundContext hist) name = none := by
      unfold roundEntry
      rw [herrRound]
    rw [runOneRound_spec]
    simp only [List.all_eq_true, bne_iff_ne, ne_eq]
    intro x hx hagent
    rcases List.mem_filterMap.mp hx with ⟨n', _, he⟩
    have hxn : x.agent = n' := roundEntry_agent _ _ _ _ _ he
    rw [hxn.symm.trans hagent, hentry] at he
    exact Option.noConfusion he
  · rw [runOneRound_spec]
    exact List.mem_filterMap.mpr ⟨n, hn, hm⟩

/-- Witness for C6: Operator fails in the broadcast, Sheryl times out in a
round; the others' results are intact. -/
theorem persona_failure_containment_witness :
    (rolesList.Perm rolesList ∧
      (fun r => match r with
        | Role.operator => Outcome.err "down"
        | _ => Outcome.ok "good") Role.operator = Outcome.err "down" ∧
      Role.visionary ≠ Role.operator ∧
      ("Sheryl" : String) ∈ agentNames ∧
      (fun nm _ _ => if nm == "Sheryl" then Outcome.err "timeout"
        else Outcome.ok ("txt " ++ nm)) "Sheryl" (roundPrompt false ["You: q"])
          (roundContext ["You: q"]) = Outcome.err "timeout" ∧
      ("Elon" : String) ∈ agentNames ∧
      roundEntry (fun nm _ _ => if nm == "Sheryl" then Outcome.err "timeout"
        else Outcome.ok ("txt " ++ nm)) (roundPrompt false ["You: q"])
          (roundContext ["You: q"]) "Elon" = some ⟨"Elon", "txt Elon"⟩) ∧
    (dget (step2ParallelResponses (fun r => match r with
        | Role.operator => Outcome.err "down"
        | _ => Outcome.ok "good") rolesList) Role.operator.key = some ("Error: " ++ "down") ∧
      dget (step2ParallelResponses (fun r => match r with
        | Role.operator => Outcome.err "down"
        | _ => Outcome.ok "good") rolesList) Role.operator.displayName =
          some ("Error: " ++ "down") ∧
      dget (step2ParallelResponses (fun r => match r with
        | Role.operator => Outcome.err "down"
        | _ => Outcome.ok "good") rolesList) Role.visionary.key =
          some (outcomeText ((fun r => match r with
            | Role.operator => Outcome.err "down"
            | _ => Outcome.ok "good") Role.visionary)) ∧
      ("Sheryl", "Error: " ++ "timeout") ∈
        (runOneRound (fun nm _ _ => if nm == "Sheryl" then Outcome.err "timeout"
          else Outcome.ok ("txt " ++ nm)) ["You: q"] false agentNames).errors ∧
      (runOneRound (fun nm _ _ => if nm == "Sheryl" then Outcome.err "timeout"
        else Outcome.ok ("txt " ++ nm)) ["You: q"] false agentNames).newMessages.all
          (fun x => x.agent != "Sheryl") = true ∧
      (⟨"Elon", "txt Elon"⟩ : ChatMsg) ∈
        (runOneRound (fun nm _ _ => if nm == "Sheryl" then Outcome.err "timeout"
          else Outcome.ok ("txt " ++ nm)) ["You: q"] false agentNames).newMessages) :=
  ⟨⟨by decide, by decide, by decide, by decide, by decide, by decide, by decide⟩,
    persona_failure_containment _ rolesList Role.operator Role.visionary "down" _
      ["You: q"] false agentNames "Sheryl" "Elon" "timeout" ⟨"Elon", "txt Elon"⟩
      (by decide) (by decide) (by decide) (by decide) (by decide) (by decide) (by decide)⟩

/-! ## Exchange-input lemmas for `run_tagged_debate` -/

theorem exchange_foldl_inputs (chat : String → String → String → Outcome) (i : Nat)
    (um context : String) :
    ∀ (l : List String) (acc : List String × List ChatMsg × List (String × String × String)),
      (l.foldl (exchangeStep chat i um context) acc).2.2 =
        acc.2.2 ++ l.map (fun n => (n, exchangePrompt n i um context, context)) := by
  intro l
  induction l with
  | nil => intro acc; simp
  | cons a l ih =>
      intro acc
      rw [List.foldl_cons, ih]
      cases h : chat a (exchangePrompt a i um context) context with
      | ok r => simp [exchangeStep, h]
      | err e2 => simp [exchangeStep, h]

theorem runExchange_inputs (chat : String → String → String → Outcome)
    (participating : List String) (i : Nat) (um : String) (hist : List String) :
    (runExchange chat participating i um hist).2.2 =
      participating.map
        (fun n => (n, exchangePrompt n i um (exchangeContext hist), exchangeContext hist)) := by
  unfold runExchange
  rw [exchange_foldl_inputs]
  simp

/-- C2 (amended): in every `run_one_round` round and every `run_tagged_debate`
exchange, all dispatched personas receive the identical context snapshot
computed at the start of the round/exchange, and the dispatched inputs are
independent of the personas' outputs — so no persona's input contains
another persona's reply produced in that same round/exchange. (The
multi-round `step_2_5_debate` step does not have this property; see the
counterexample.) -/
theorem same_round_snapshot_amended
    (o o' : String → String → String → Outcome) (hist : List String) (f : Bool)
    (co : List String)
    (chat chat' : String → String → String → Outcome) (participating : List String)
    (i : Nat) (um : String) (dhist : List String) :
    (runOneRound o hist f co).inputs =
      agentNames.map (fun n => (n, roundPrompt f hist, roundContext hist)) ∧
    (runOneRound o hist f co).inputs = (runOneRound o' hist f co).inputs ∧
    (runExchange chat participating i um dhist).2.2 =
      participating.map
        (fun n => (n, exchangePrompt n i um (exchangeContext dhist), exchangeContext dhist)) ∧
    (runExchange chat participating i um dhist).2.2 =
      (runExchange chat' participating i um dhist).2.2 := by
  refine ⟨rfl, rfl, runExchange_inputs chat participating i um dhist, ?_⟩
  rw [runExchange_inputs, runExchange_inputs]

/-- Counterexample to C2 as stated: in one round of `step_2_5_debate` the
personas do not share a context snapshot — Sam's input context already
contains `"Elon: ZEBRA"`, the reply Elon produced earlier in the very same
round. -/
theorem same_round_snapshot_counterexample :
    (step25Round
        (fun name _ _ => Outcome.ok (if name == "Elon" then "ZEBRA" else "okay"))
        ["You: hi"]).2.2 =
      [("Elon", "You: hi"),
        ("Sam", "You: hi\nElon: ZEBRA"),
        ("Sheryl", "You: hi\nElon: ZEBRA\nSam: okay"),
        ("Ray", "You: hi\nElon: ZEBRA\nSam: okay\nSheryl: okay")] ∧
    strContains "You: hi\nElon: ZEBRA" "Elon: ZEBRA" = true :=
  ⟨by decide, by decide⟩

/-! ## Debate-loop lemmas for `run_tagged_debate` -/

theorem debateTrace_length_le (chat : String → String → String → Outcome)
    (participating : List String) (um : String) :
    ∀ (rem i : Nat) (hist : List String),
      (debateTrace chat participating um rem i hist).length ≤ rem := by
  intro rem
  induction rem with
  | zero => intro i hist; simp [debateTrace]
  | succ k ih =>
      intro i hist
      rw [debateTrace]
      by_cases hb : hasClosingBreak (runExchange chat participating i um hist).2.1
      · simp [hb]
      · simp only [hb, if_false, List.length_cons]
        exact Nat.succ_le_succ (ih (i + 1) _)

theorem debateTrace_no_early_signal (chat : String → String → String → Outcome)
    (participating : List String) (um : String) :
    ∀ (rem i : Nat) (hist : List String) (j : Nat) (ex : List ChatMsg),
      (debateTrace chat participating um rem i hist)[j]? = some ex →
      j + 1 < (debateTrace chat participating um rem i hist).length →
      hasClosingBreak ex = false := by
  intro rem
  induction rem with
  | zero => intro i hist j ex hget _; simp [debateTrace] at hget
  | succ k ih =>
      intro i hist j ex hget hlt
      rw [debateTrace] at hget hlt
      by_cases hb : hasClosingBreak (runExchange chat participating i um hist).2.1
      · rw [if_pos hb] at hget hlt
        simp at hlt
      · rw [if_neg hb] at hget hlt
        cases j with
        | zero =>
            simp only [List.getElem?_cons_zero, Option.some.injEq] at hget
            subst hget
            exact Bool.eq_false_iff.mpr hb
        | succ j' =>
            simp only [List.getElem?_cons_succ] at hget
            simp only [List.length_cons] at hlt
            exact ih (i + 1) _ j' ex hget (by omega)

/-- C3: a tagged debate with a non-empty addressed subset executes at most 3
exchanges, and every exchange other than the last one produced no
closing-signal reply — i.e. the loop stops right after the first exchange in
which some participating persona's reply contains (case-insensitively) one
of the fixed closing-signal phrases, executing no further exchange. -/
theorem tagged_debate_bound (chat : String → String → String → Outcome)
    (tagged : List String) (um : String) (hist : List String) (j : Nat)
    (ex : List ChatMsg)
    (hne : participatingOf tagged ≠ [])
    (hget : (runTaggedDebate chat tagged um hist)[j]? = some ex)
    (hlt : j + 1 < (runTaggedDebate chat tagged um hist).length) :
    (runTaggedDebate chat tagged um hist).length ≤ 3 ∧ hasClosingBreak ex = false := by
  have hemp : (participatingOf tagged).isEmpty = false := by
    simpa [List.isEmpty_iff] using hne
  simp only [runTaggedDebate, hemp, Bool.false_eq_true, if_false] at hget hlt ⊢
  exact ⟨debateTrace_length_le chat _ um 3 0 _,
    debateTrace_no_early_signal chat _ um 3 0 _ j ex hget hlt⟩

/-- Witness for C3: a two-persona debate where no reply ever contains a
closing signal runs its full 3 exchanges, none but possibly the last one
closing. -/
theorem tagged_debate_bound_witness :
    (participatingOf ["Elon", "Ray"] ≠ [] ∧
      (runTaggedDebate (fun _ _ _ => Outcome.ok "keep digging") ["Elon", "Ray"] "topic"
        [])[0]? = some [⟨"Elon", "keep digging"⟩, ⟨"Ray", "keep digging"⟩] ∧
      0 + 1 < (runTaggedDebate (fun _ _ _ => Outcome.ok "keep digging") ["Elon", "Ray"]
        "topic" []).length) ∧
    ((runTaggedDebate (fun _ _ _ => Outcome.ok "keep digging") ["Elon", "Ray"] "topic"
        []).length ≤ 3 ∧
      hasClosingBreak [⟨"Elon", "keep digging"⟩, ⟨"Ray", "keep digging"⟩] = false) :=
  ⟨⟨by decide, by decide, by decide⟩,
    tagged_debate_bound (fun _ _ _ => Outcome.ok "keep digging") ["Elon", "Ray"] "topic"
      [] 0 [⟨"Elon", "keep digging"⟩, ⟨"Ray", "keep digging"⟩]
      (by decide) (by decide) (by decide)⟩

/-- C7: for every `agent_responses` map and synthesis result, both decision
strategies return a record whose `recommended_options` is exactly the
synthesis result's `final_options`, with the synthesis summary, agreements,
conflicts and blind spots copied through unchanged — both strategies are
projections of their inputs and recompute nothing. -/
theorem decision_shape_invariance (weights : List (String × Rat))
    (ar : List (String × String)) (so : SynthesisOutput) :
    (weightedDecision weights ar so).recommendedOptions = so.finalOptions ∧
    (majorityVoting ar so).recommendedOptions = so.finalOptions ∧
    (weightedDecision weights ar so).synthesisSummary = so.summary ∧
    (weightedDecision weights ar so).keyAgreements = so.agreements ∧
    (weightedDecision weights ar so).keyConflicts = so.conflicts ∧
    (weightedDecision weights ar so).identifiedBlindSpots = so.blindSpots ∧
    (majorityVoting ar so).synthesisSummary = so.summary ∧
    (majorityVoting ar so).keyAgreements = so.agreements ∧
    (majorityVoting ar so).keyConflicts = so.conflicts ∧
    (majorityVoting ar so).identifiedBlindSpots = so.blindSpots :=
  ⟨rfl, rfl, rfl, rfl, rfl, rfl, rfl, rfl, rfl, rfl⟩

/-! ## Key-set lemmas for the weighted decision -/

theorem foldl_dinsert_fst_mem {α : Type} :
    ∀ (b : List (String × α)) (acc : List (String × α)),
      (∀ p ∈ b, p.1 ∈ acc.map Prod.fst) →
      ((b.foldl (fun m p => dinsert m p.1 p.2) acc).map Prod.fst) = acc.map Prod.fst := by
  intro b
  induction b with
  | nil => intro acc _; rfl
  | cons p b ih =>
      intro acc hb
      rw [List.foldl_cons]
      have hmem : p.1 ∈ acc.map Prod.fst := hb p (by simp)
      have hstep : (dinsert acc p.1 p.2).map Prod.fst = acc.map Prod.fst := by
        rw [dinsert_map_fst, if_pos hmem]
      rw [ih _ (fun q hq => hstep ▸ hb q (by simp [hq])), hstep]

theorem foldl_dinsert_breakdown_fst (ar : List (String × String)) :
    ∀ (ws : List (String × Rat)) (acc : List (String × WeightEntry)),
      ((ws.foldl (fun acc p =>
          dinsert acc (roleToName p.1)
            ⟨p.2, preview200 (pyGetOr ar p.1 (roleToName p.1))⟩) acc).map Prod.fst) =
        (ws.map (fun p => roleToName p.1)).foldl
          (fun ks k => if k ∈ ks then ks else ks ++ [k]) (acc.map Prod.fst) := by
  intro ws
  induction ws with
  | nil => intro acc; rfl
  | cons p ws ih =>
      intro acc
      rw [List.foldl_cons, ih, List.map_cons, List.foldl_cons, dinsert_map_fst]

/-- C8: in a weighted session — including one constructed with custom
per-role weights — the effective weights cover exactly the 4 role keys, the
`weight_breakdown` of `_weighted_decision` is keyed by exactly the 4 display
aliases, and the session's `agent_responses` holds exactly the 8
role-or-alias keys: together they reference exactly the 4 known roles and
never a key outside the known roles/aliases. -/
theorem weighted_known_roles (cw : List (String × Rat)) (o : Role → Outcome)
    (co : List Role) (so : SynthesisOutput)
    (hcw : ∀ p ∈ cw, p.1 ∈ knownRoleKeys) (hco : co.Perm rolesList) :
    (initWeights (some cw)).map Prod.fst = knownRoleKeys ∧
    ((weightedDecision (initWeights (some cw)) (step2ParallelResponses o co)
        so).weightBreakdown.map Prod.fst) = ["Elon", "Sam", "Sheryl", "Ray"] ∧
    ((step2ParallelResponses o co).map Prod.fst).Perm eightKeys := by
  have hnd : co.Nodup := hco.nodup_iff.mpr rolesList_nodup
  have h1 : (initWeights (some cw)).map Prod.fst = knownRoleKeys := by
    have hred : initWeights (some cw) =
        if cw.isEmpty = true then agentWeightsConfig else pyMerge agentWeightsConfig cw := rfl
    rw [hred]
    by_cases hemp : cw.isEmpty
    · rw [if_pos hemp]
      rfl
    · rw [if_neg hemp]
      unfold pyMerge
      have hsub : ∀ p ∈ cw, p.1 ∈ agentWeightsConfig.map Prod.fst := by
        intro p hp
        simpa [agentWeightsConfig, knownRoleKeys] using hcw p hp
      rw [foldl_dinsert_fst_mem cw agentWeightsConfig hsub]
      rfl
  refine ⟨h1, ?_, ?_⟩
  · have hb : (weightedDecision (initWeights (some cw)) (step2ParallelResponses o co)
        so).weightBreakdown =
        (initWeights (some cw)).foldl
          (fun acc p => dinsert acc (roleToName p.1)
            ⟨p.2, preview200 (pyGetOr (step2ParallelResponses o co) p.1 (roleToName p.1))⟩)
          [] := rfl
    rw [hb, foldl_dinsert_breakdown_fst]
    have hmap : (initWeights (some cw)).map (fun p => roleToName p.1) =
        ((initWeights (some cw)).map Prod.fst).map roleToName := by
      rw [List.map_map]
      rfl
    rw [hmap, h1]
    decide
  · have hkeys := step2_foldl_map_fst o co [] (by intro r' _; exact ⟨rfl, rfl⟩) hnd
    unfold step2ParallelResponses
    rw [hkeys]
    simpa [eightKeys] using hco.flatMap_right (fun r' => [r'.displayName, r'.key])

/-- Witness for C8 with a custom weight override for the Operator role. -/
theorem weighted_known_roles_witness :
    ((∀ p ∈ ([("Operator", (1 : Rat)/2)] : List (String × Rat)), p.1 ∈ knownRoleKeys) ∧
      rolesList.Perm rolesList) ∧
    ((initWeights (some [("Operator", (1 : Rat)/2)])).map Prod.fst = knownRoleKeys ∧
      ((weightedDecision (initWeights (some [("Operator", (1 : Rat)/2)]))
          (step2ParallelResponses (fun _ => Outcome.ok "resp") rolesList)
          ⟨"s", [], [], [], []⟩).weightBreakdown.map Prod.fst) =
        ["Elon", "Sam", "Sheryl", "Ray"] ∧
      ((step2ParallelResponses (fun _ => Outcome.ok "resp") rolesList).map
          Prod.fst).Perm eightKeys) :=
  ⟨⟨by decide, by decide⟩,
    weighted_known_roles [("Operator", (1 : Rat)/2)] (fun _ => Outcome.ok "resp")
      rolesList ⟨"s", [], [], [], []⟩ (by decide) (by decide)⟩

/-! ## Lookup lemmas for the stored previews -/

theorem dget_some_mem {α : Type} :
    ∀ (m : List (String × α)) (k : String) (v : α), dget m k = some v → (k, v) ∈ m := by
  intro m
  induction m with
  | nil => intro k v h; simp [dget] at h
  | cons p m ih =>
      intro k v h
      rw [dget] at h
      split at h
      · rename_i hp
        injection h with h2
        exact List.mem_cons.mpr (Or.inl (Prod.ext hp h2).symm)
      · exact List.mem_cons_of_mem _ (ih k v h)

theorem foldl_dinsert_dget_not_mem {α β : Type} (f : String × α → String)
    (g : String × α → β) :
    ∀ (ws : List (String × α)) (acc : List (String × β)) (k : String),
      (∀ p ∈ ws, f p ≠ k) →
      dget (ws.foldl (fun a p => dinsert a (f p) (g p)) acc) k = dget acc k := by
  intro ws
  induction ws with
  | nil => intro acc k _; rfl
  | cons p ws ih =>
      intro acc k hk
      rw [List.foldl_cons, ih _ k (fun q hq => hk q (by simp [hq])),
        dget_dinsert_ne acc (f p) k (g p) (Ne.symm (hk p (by simp)))]

theorem foldl_dinsert_dget_mem {α β : Type} (f : String × α → String) (g : String × α → β) :
    ∀ (ws : List (String × α)) (acc : List (String × β)) (p₀ : String × α),
      p₀ ∈ ws → (ws.map f).Nodup →
      dget (ws.foldl (fun a p => dinsert a (f p) (g p)) acc) (f p₀) = some (g p₀) := by
  intro ws
  induction ws with
  | nil => intro acc p₀ h _; exact absurd h (by simp)
  | cons q ws ih =>
      intro acc p₀ hp hnd
      rw [List.map_cons, List.nodup_cons] at hnd
      rcases List.mem_cons.mp hp with h | h
      · subst h
        rw [List.foldl_cons,
          foldl_dinsert_dget_not_mem f g ws _ (f p₀)
            (fun p hpws he => hnd.1 (he ▸ List.mem_map_of_mem f hpws))]
        exact dget_dinsert_self _ _ _
      · rw [List.foldl_cons]
        exact ih _ p₀ h hnd.2

/-- C9: the stored response preview equals the response when it has at most
200 characters, and otherwise is the 200-character truncation with an
ellipsis appended; both strategies store exactly this preview — the majority
record under the response's own key, the weighted breakdown under the
role's display alias together with that role's configured weight. -/
theorem response_preview_truncation (response : String) (k v : String)
    (ar : List (String × String)) (so : SynthesisOutput)
    (weights : List (String × Rat)) (r : Role) (wv : Rat)
    (hnodup : (ar.map Prod.fst).Nodup) (hk : dget ar k = some v)
    (hw : weights.map Prod.fst = knownRoleKeys) (hwv : dget weights r.key = some wv) :
    (response.length ≤ 200 → preview200 response = response) ∧
    (200 < response.length →
      preview200 response = response.take 200 ++ "..." ∧
        (response.take 200).length = 200) ∧
    dget (majorityVoting ar so).agentResponses k = some (preview200 v) ∧
    dget (weightedDecision weights ar so).weightBreakdown (roleToName r.key) =
      some ⟨wv, preview200 (pyGetOr ar r.key (roleToName r.key))⟩ := by
  refine ⟨?_, ?_, ?_, ?_⟩
  · intro h
    unfold preview200
    rw [if_neg (by omega)]
  · intro h
    refine ⟨?_, ?_⟩
    · unfold preview200
      rw [if_pos (by omega)]
    · rw [← String.length_data, String.data_take, List.length_take]
      have h2 : 200 < response.data.length := by
        rw [String.length_data]
        exact h
      omega
  · exact foldl_dinsert_dget_mem Prod.fst (fun p => preview200 p.2) ar [] (k, v)
      (dget_some_mem ar k v hk) hnodup
  · have hnd : (weights.map (fun p => roleToName p.1)).Nodup := by
      have : weights.map (fun p => roleToName p.1) =
          (weights.map Prod.fst).map roleToName := by
        rw [List.map_map]
        rfl
      rw [this, hw]
      decide
    exact foldl_dinsert_dget_mem (fun p => roleToName p.1)
      (fun p => (⟨p.2, preview200 (pyGetOr ar p.1 (roleToName p.1))⟩ : WeightEntry))
      weights [] (r.key, wv) (dget_some_mem weights r.key wv hwv) hnd

/-- Witness for C9 at the default weight table and a one-entry response map. -/
theorem response_preview_truncation_witness :
    (((([("Elon", "short text")] : List (String × String)).map Prod.fst).Nodup ∧
      dget [("Elon", "short text")] "Elon" = some "short text" ∧
      agentWeightsConfig.map Prod.fst = knownRoleKeys ∧
      dget agentWeightsConfig Role.visionary.key = some (35/100 : Rat)) ∧
    (("abc".length ≤ 200 → preview200 "abc" = "abc") ∧
      (200 < "abc".length →
        preview200 "abc" = "abc".take 200 ++ "..." ∧ ("abc".take 200).length = 200) ∧
      dget (majorityVoting [("Elon", "short text")]
        ⟨"s", [], [], [], []⟩).agentResponses "Elon" = some (preview200 "short text") ∧
      dget (weightedDecision agentWeightsConfig [("Elon", "short text")]
          ⟨"s", [], [], [], []⟩).weightBreakdown (roleToName Role.visionary.key) =
        some ⟨(35/100 : Rat),
          preview200 (pyGetOr [("Elon", "short text")] Role.visionary.key
            (roleToName Role.visionary.key))⟩)) :=
  ⟨⟨by decide, by decide, by decide, by rfl⟩,
    response_preview_truncation "abc" "Elon" "short text" [("Elon", "short text")]
      ⟨"s", [], [], [], []⟩ agentWeightsConfig Role.visionary (35/100 : Rat)
      (by decide) (by decide) (by decide) (by rfl)⟩

/-! ## Round-count lemma for `run_group_chat` -/

theorem groupChat_foldl_flags (outcome : Nat → String → String → String → Outcome) :
    ∀ (l : List Nat) (acc : List ChatMsg × List String × List Bool),
      (l.foldl (groupChatStep outcome) acc).2.2 =
        acc.2.2 ++ List.replicate l.length false := by
  intro l
  induction l with
  | nil => intro acc; simp
  | cons a l ih =>
      intro acc
      rw [List.foldl_cons, ih]
      simp [groupChatStep, List.replicate_succ]

/-- C10: `run_group_chat` with `chat_rounds = n ≥ 1` executes exactly `n`
rounds — one first round followed by `n − 1` skip-enabled rounds — for every
per-round outcome assignment, including assignments under which a round
returns no new messages (every persona skipping or failing): the source's
empty-round check only prints a notice and never terminates the chat early. -/
theorem group_chat_executes_all_rounds (outcome : Nat → String → String → String → Outcome)
    (um : String) (n : Nat) (hn : 1 ≤ n) :
    (runGroupChat outcome um n).2.2 = true :: List.replicate (n - 1) false ∧
    (runGroupChat outcome um n).2.2.length = n := by
  have h1 : (runGroupChat outcome um n).2.2 = true :: List.replicate (n - 1) false := by
    simp only [runGroupChat]
    rw [groupChat_foldl_flags]
    simp [List.length_range']
  refine ⟨h1, ?_⟩
  rw [h1]
  simp
  omega

/-- Witness for C10 with three rounds, all personas skipping in the middle
round. -/
theorem group_chat_executes_all_rounds_witness :
    1 ≤ 3 ∧
    ((runGroupChat (fun i _ _ _ => if i = 0 then Outcome.ok "hello" else Outcome.ok "SKIP")
        "question" 3).2.2 = true :: List.replicate (3 - 1) false ∧
      (runGroupChat (fun i _ _ _ => if i = 0 then Outcome.ok "hello" else Outcome.ok "SKIP")
        "question" 3).2.2.length = 3) :=
  ⟨by decide,
    group_chat_executes_all_rounds
      (fun i _ _ _ => if i = 0 then Outcome.ok "hello" else Outcome.ok "SKIP")
      "question" 3 (by decide)⟩

end AICouncil
